import Mathlib

/-!
Verification of the gesture-to-control pipeline of the holographic-earth app.

The numeric model uses ℚ for the reducer and smoothing layers (every
operation there is field arithmetic, `min`/`max` and comparisons, so the
embedding is executable), and ℝ for the two places where the source uses
`Math.sqrt` and `Math.PI` (the landmark-level pinch distance and the
region-bucketing function `getRegionFromRotation`).

Sources embedded:
- `src/types.ts`: `HandType`, `HandLandmark`, `EarthControlState`.
- `src/App.tsx` lines 12-25: `getRegionFromRotation`.
- `src/App.tsx` lines 37-68: the smoothing `useFrame` callback of
  `HolographicEarth` (the lerp part; the clouds/rings decoration that
  reads the clock is secondary-mesh decoration, not smoothed control
  state, and is not needed by any claim).
- `src/App.tsx` lines 281-286: the initial `earthControl` ref value.
- `src/App.tsx` lines 362-444: the per-frame hand-processing loop of
  `renderLoop` (viewport constants, mirroring, pinch threshold, the
  left-hand drag branch and the right-hand rotate/scale branch).
-/

namespace Jarvis

/-- A 2-component vector with rational coordinates; used for the
`rotation` and `position` fields of the control state and for palm
positions in normalized image space. -/
@[ext]
structure Vec2 where
  x : ℚ
  y : ℚ
  deriving DecidableEq, Repr

/-- Handedness label, from `src/types.ts` (`enum HandType`). -/
inductive HandType where
  | LEFT
  | RIGHT
  deriving DecidableEq, Repr

/-- The single long-lived control state, from `src/types.ts`
(`interface EarthControlState`). -/
@[ext]
structure EarthControlState where
  rotation : Vec2
  scale : ℚ
  position : Vec2
  activeRegion : String
  deriving DecidableEq, Repr

/-- The initial value of the `earthControl` ref, `src/App.tsx` lines
281-286: rotation (0,0), scale 1, position (-2.5, 0), region "ATLANTIC". -/
def initialEarthControl : EarthControlState :=
  { rotation := { x := 0, y := 0 }
    scale := 1
    position := { x := -5/2, y := 0 }
    activeRegion := "ATLANTIC" }

/-- One hand's per-frame gesture data as consumed by the reducer branch of
`renderLoop`: the handedness label (`result.handedness[i][0].categoryName`),
the palm-center landmark `landmarks[9]` (x,y in normalized image space), and
the scalar thumb-index pinch distance `pinchDist`.  The landmark-level
computation of `pinchDist` itself (App.tsx lines 394-398) is modelled
separately by `pinchDistance` below over ℝ. -/
structure GestureEvent where
  handedness : HandType
  palmCenter : Vec2
  pinchDist : ℚ
  deriving DecidableEq, Repr

/-- Visible world-space height of the viewport at z = 0, `src/App.tsx`
line 364: `const vHeight = 4.14`. -/
def vHeight : ℚ := 4.14

/-- Visible world-space width, `src/App.tsx` line 365:
`const vWidth = vHeight * (window.innerWidth / window.innerHeight)`. -/
def vWidth (aspect : ℚ) : ℚ := vHeight * aspect

/-- Processing of a single detected hand by `renderLoop`,
`src/App.tsx` lines 390-437, as a pure state transformer.
Mirroring: `visualX = 1 - palmCenter.x`, `visualY = palmCenter.y`.
Left hand: if `pinchDist < 0.05` write `position` from the drag mapping,
otherwise change nothing.  Right hand: write `rotation.y = (visualX-0.5)*6`,
`rotation.x = (visualY-0.5)*4` and
`scale = Math.max(0.5, Math.min(3.5, 0.5 + pinchDist*10))`. -/
def processHand (aspect : ℚ) (st : EarthControlState) (e : GestureEvent) :
    EarthControlState :=
  let visualX : ℚ := 1 - e.palmCenter.x
  let visualY : ℚ := e.palmCenter.y
  match e.handedness with
  | HandType.LEFT =>
      if e.pinchDist < 0.05 then
        let worldX := (visualX - 0.5) * vWidth aspect
        let worldY := -((visualY - 0.5) * vHeight)
        { st with position := { x := worldX, y := worldY } }
      else
        st
  | HandType.RIGHT =>
      let newScale := max 0.5 (min 3.5 (0.5 + e.pinchDist * 10))
      { st with
          rotation := { x := (visualY - 0.5) * 4, y := (visualX - 0.5) * 6 }
          scale := newScale }

/-- One frame of `renderLoop` (App.tsx lines 367-438) restricted to its
effect on `earthControl`: iterate over the detected hands in order,
each mutating the state in place.  A frame with zero detected hands
skips the loop entirely and leaves the state untouched. -/
def processFrame (aspect : ℚ) (events : List GestureEvent)
    (st : EarthControlState) : EarthControlState :=
  events.foldl (processHand aspect) st

/-- A single hand landmark, from `src/types.ts` (`interface HandLandmark`):
normalized image-space coordinates plus a depth estimate.  Real-valued
because the pinch distance below takes a square root. -/
structure HandLandmark where
  x : ℝ
  y : ℝ
  z : ℝ

/-- The pinch distance of `renderLoop`, `src/App.tsx` lines 395-398:
`Math.sqrt(Math.pow(thumbTip.x - indexTip.x, 2) + Math.pow(thumbTip.y - indexTip.y, 2))`.
Only the x and y coordinates of the two fingertip landmarks are read. -/
noncomputable def pinchDistance (thumbTip indexTip : HandLandmark) : ℝ :=
  Real.sqrt ((thumbTip.x - indexTip.x) ^ 2 + (thumbTip.y - indexTip.y) ^ 2)

/-- Pinch classification, `src/App.tsx` line 411: `pinchDist < 0.05`. -/
def isPinchingDist (d : ℝ) : Prop := d < 0.05

/-- The scale mapping applied to a real-valued pinch distance,
`src/App.tsx` line 435: `Math.max(0.5, Math.min(3.5, 0.5 + pinchDist * 10))`. -/
noncomputable def scaleOfPinch (d : ℝ) : ℝ := max 0.5 (min 3.5 (0.5 + d * 10))

/-- JavaScript's truncating division step used by the `%` operator:
`a % b = a - b * trunc(a / b)`.  Truncation rounds toward zero. -/
noncomputable def jsTrunc (x : ℝ) : ℝ := if 0 ≤ x then (⌊x⌋ : ℝ) else (⌈x⌉ : ℝ)

/-- The normalization step of `getRegionFromRotation`, `src/App.tsx`
lines 14-15: `let normalized = yRotation % (Math.PI * 2);
if (normalized < 0) normalized += Math.PI * 2;`. -/
noncomputable def normalizeAngle (yRotation : ℝ) : ℝ :=
  let n := yRotation - Real.pi * 2 * jsTrunc (yRotation / (Real.pi * 2))
  if n < 0 then n + Real.pi * 2 else n

/-- The degree conversion of `getRegionFromRotation`, `src/App.tsx`
line 18: `const deg = (normalized * 180) / Math.PI`. -/
noncomputable def normalizedDeg (yRotation : ℝ) : ℝ :=
  normalizeAngle yRotation * 180 / Real.pi

/-- The region-bucketing function, `src/App.tsx` lines 12-25. -/
noncomputable def getRegionFromRotation (yRotation : ℝ) : String :=
  let deg := normalizedDeg yRotation
  if deg > 330 ∨ deg < 30 then "非洲 / 欧洲"
  else if 30 ≤ deg ∧ deg < 120 then "美洲 (东部)"
  else if 120 ≤ deg ∧ deg < 210 then "太平洋"
  else if 210 ≤ deg ∧ deg < 300 then "亚洲 / 澳洲"
  else "大西洋"

/-- The five region labels returned by `getRegionFromRotation`. -/
def regionLabels : List String :=
  ["非洲 / 欧洲", "美洲 (东部)", "太平洋", "亚洲 / 澳洲", "大西洋"]

/-- The bucketing that the spec's words describe (spec §8: "boundaries at
30°,120°,210°,300° produce the documented five labels"): four boundary
points cutting [0°,360°) into five consecutive intervals, the last label
covering all of [300°,360°).  Stated as a second definition to be compared
with the source's `getRegionFromRotation`, which has a fifth boundary at
330°. -/
noncomputable def getRegionSpecPartition (yRotation : ℝ) : String :=
  let deg := normalizedDeg yRotation
  if deg < 30 then "非洲 / 欧洲"
  else if deg < 120 then "美洲 (东部)"
  else if deg < 210 then "太平洋"
  else if deg < 300 then "亚洲 / 澳洲"
  else "大西洋"

/-- The bucketing the source actually implements, on the degree value:
boundaries at 30°, 120°, 210°, 300° and 330°, with the first label
wrapping around through 0°. -/
noncomputable def regionOfDeg (deg : ℝ) : String :=
  if deg < 30 then "非洲 / 欧洲"
  else if deg < 120 then "美洲 (东部)"
  else if deg < 210 then "太平洋"
  else if deg < 300 then "亚洲 / 澳洲"
  else if deg ≤ 330 then "大西洋"
  else "非洲 / 欧洲"

/-- The smoothed render-side state of `HolographicEarth`: the group
position, the three mesh scales and the earth rotation that the
`useFrame` callback (App.tsx lines 37-68) interpolates toward
`earthControl` every render tick. -/
@[ext]
structure SmoothedState where
  posX : ℚ
  posY : ℚ
  earthScale : ℚ
  cloudsScale : ℚ
  ringsScale : ℚ
  rotY : ℚ
  rotX : ℚ
  deriving DecidableEq, Repr

/-- Linear interpolation as used by `THREE.MathUtils.lerp` and
`Vector3.lerp`: `x + (y - x) * t`. -/
def lerp (a b t : ℚ) : ℚ := a + (b - a) * t

/-- One invocation of the smoothing part of the `useFrame` callback,
`src/App.tsx` lines 41-56: lerp the group position toward
`controlRef.current.position` with factor 0.2, the three mesh scales
toward `scale` (clouds toward `scale * 1.02`) with factor 0.1, and the
earth rotation toward `rotation` with factor 0.1.  The callback receives
the frame's elapsed time `delta`, but none of the interpolation factors
use it.  (The clouds/rings spin of lines 58-63 reads the global clock and
decorates secondary meshes only; it never feeds back into these fields.) -/
def smoothStep (target : EarthControlState) (_delta : ℚ) (s : SmoothedState) :
    SmoothedState :=
  { posX := lerp s.posX target.position.x 0.2
    posY := lerp s.posY target.position.y 0.2
    earthScale := lerp s.earthScale target.scale 0.1
    cloudsScale := lerp s.cloudsScale (target.scale * 1.02) 0.1
    ringsScale := lerp s.ringsScale target.scale 0.1
    rotY := lerp s.rotY target.rotation.y 0.1
    rotX := lerp s.rotX target.rotation.x 0.1 }

/-- Clamp, written from the spec's words `clamp(v, lo, hi)` (spec §8:
`computedScale(d) = clamp(0.5 + d*10, 0.5, 3.5)`). -/
def clamp (v lo hi : ℚ) : ℚ := max lo (min hi v)

/-- The spec-side scale mapping (spec §8): `clamp(0.5 + d*10, 0.5, 3.5)`.
To be compared against the scale the reducer actually writes. -/
def computedScale (d : ℚ) : ℚ := clamp (0.5 + d * 10) 0.5 3.5

/-! ## Helper lemmas -/

/-- Reduction of `processHand` on a right-hand event. -/
theorem processHand_right (aspect : ℚ) (st : EarthControlState)
    (pc : Vec2) (pd : ℚ) :
    processHand aspect st ⟨HandType.RIGHT, pc, pd⟩ =
      { st with
          rotation := { x := (pc.y - 0.5) * 4, y := ((1 - pc.x) - 0.5) * 6 }
          scale := max 0.5 (min 3.5 (0.5 + pd * 10)) } := rfl

/-- Reduction of `processHand` on a pinching left-hand event. -/
theorem processHand_left_pinch (aspect : ℚ) (st : EarthControlState)
    (pc : Vec2) (pd : ℚ) (h : pd < 0.05) :
    processHand aspect st ⟨HandType.LEFT, pc, pd⟩ =
      { st with
          position := { x := ((1 - pc.x) - 0.5) * vWidth aspect
                        y := -((pc.y - 0.5) * vHeight) } } := by
  simp only [processHand, if_pos h]

/-- Reduction of `processHand` on a non-pinching left-hand event. -/
theorem processHand_left_idle (aspect : ℚ) (st : EarthControlState)
    (pc : Vec2) (pd : ℚ) (h : ¬ pd < 0.05) :
    processHand aspect st ⟨HandType.LEFT, pc, pd⟩ = st := by
  simp only [processHand, if_neg h]

/-- Every value ever written to the `scale` field is the clamped mapping;
a processed hand either leaves `scale` alone or stores `computedScale`. -/
theorem processHand_scale_cases (aspect : ℚ) (st : EarthControlState)
    (e : GestureEvent) :
    (processHand aspect st e).scale = st.scale ∨
      (processHand aspect st e).scale = computedScale e.pinchDist := by
  obtain ⟨h, pc, pd⟩ := e
  cases h with
  | LEFT =>
      by_cases hp : pd < 0.05
      · rw [processHand_left_pinch aspect st pc pd hp]
        exact Or.inl rfl
      · rw [processHand_left_idle aspect st pc pd hp]
        exact Or.inl rfl
  | RIGHT =>
      rw [processHand_right]
      exact Or.inr rfl

/-- The clamped scale mapping always lands in [0.5, 3.5]. -/
theorem computedScale_mem (d : ℚ) :
    0.5 ≤ computedScale d ∧ computedScale d ≤ 3.5 := by
  unfold computedScale clamp
  constructor
  · exact le_max_left _ _
  · exact max_le (by norm_num) (min_le_left _ _)

/-- The clamped scale mapping is monotone non-decreasing. -/
theorem computedScale_mono {d d' : ℚ} (h : d ≤ d') :
    computedScale d ≤ computedScale d' := by
  unfold computedScale clamp
  exact max_le_max le_rfl (min_le_min le_rfl (by linarith))

/-- A single processed hand preserves the scale invariant. -/
theorem processHand_scale_invariant (aspect : ℚ) (st : EarthControlState)
    (e : GestureEvent) (h0 : 0.5 ≤ st.scale) (h1 : st.scale ≤ 3.5) :
    0.5 ≤ (processHand aspect st e).scale ∧
      (processHand aspect st e).scale ≤ 3.5 := by
  rcases processHand_scale_cases aspect st e with h | h
  · rw [h]; exact ⟨h0, h1⟩
  · rw [h]; exact computedScale_mem e.pinchDist

/-- A whole frame preserves the scale invariant. -/
theorem processFrame_scale_invariant (aspect : ℚ) (events : List GestureEvent)
    (st : EarthControlState) (h0 : 0.5 ≤ st.scale) (h1 : st.scale ≤ 3.5) :
    0.5 ≤ (processFrame aspect events st).scale ∧
      (processFrame aspect events st).scale ≤ 3.5 := by
  induction events generalizing st with
  | nil => exact ⟨h0, h1⟩
  | cons e es ih =>
      have hstep := processHand_scale_invariant aspect st e h0 h1
      exact ih (processHand aspect st e) hstep.1 hstep.2

/-! ## Claims -/

/-- Claim C1: for every pinch distance `d ≥ 0` observed on the right hand,
the scale written to the control state equals `clamp(0.5 + d*10, 0.5, 3.5)`;
this mapping is monotone non-decreasing in `d` and its result always lies
within [0.5, 3.5]. -/
theorem right_scale_is_clamped_monotone_bounded (aspect : ℚ)
    (st : EarthControlState) (pc : Vec2) (d d' : ℚ)
    (_hd : 0 ≤ d) (hdd : d ≤ d') :
    (processHand aspect st ⟨HandType.RIGHT, pc, d⟩).scale = computedScale d ∧
      computedScale d ≤ computedScale d' ∧
      0.5 ≤ computedScale d ∧ computedScale d ≤ 3.5 :=
  ⟨by rw [processHand_right]; rfl, computedScale_mono hdd,
    (computedScale_mem d).1, (computedScale_mem d).2⟩

theorem right_scale_is_clamped_monotone_bounded_witness :
    (0 : ℚ) ≤ (0.1 : ℚ) ∧ (0.1 : ℚ) ≤ (0.2 : ℚ) ∧
      ((processHand 1 initialEarthControl
            ⟨HandType.RIGHT, ⟨0.3, 0.6⟩, 0.1⟩).scale = computedScale 0.1 ∧
        computedScale 0.1 ≤ computedScale 0.2 ∧
        0.5 ≤ computedScale (0.1 : ℚ) ∧ computedScale (0.1 : ℚ) ≤ 3.5) :=
  ⟨by norm_num, by norm_num,
    right_scale_is_clamped_monotone_bounded 1 initialEarthControl
      ⟨0.3, 0.6⟩ 0.1 0.2 (by norm_num) (by norm_num)⟩

/-- Claim C2: for every normalized palm position `(x,y) ∈ [0,1]²` on the
right (rotation-controlling) hand, the rotation written is exactly
`rotation.y = (visualX - 0.5) * 6` and `rotation.x = (visualY - 0.5) * 4`
with `visualX = 1 - x`, `visualY = y`, hence
`rotation.y ∈ [-3, 3]` and `rotation.x ∈ [-2, 2]`. -/
theorem right_rotation_formula_and_bounds (aspect : ℚ)
    (st : EarthControlState) (x y pd : ℚ)
    (hx0 : 0 ≤ x) (hx1 : x ≤ 1) (hy0 : 0 ≤ y) (hy1 : y ≤ 1) :
    (processHand aspect st ⟨HandType.RIGHT, ⟨x, y⟩, pd⟩).rotation.y =
        ((1 - x) - 0.5) * 6 ∧
      (processHand aspect st ⟨HandType.RIGHT, ⟨x, y⟩, pd⟩).rotation.x =
        (y - 0.5) * 4 ∧
      -3 ≤ (processHand aspect st ⟨HandType.RIGHT, ⟨x, y⟩, pd⟩).rotation.y ∧
      (processHand aspect st ⟨HandType.RIGHT, ⟨x, y⟩, pd⟩).rotation.y ≤ 3 ∧
      -2 ≤ (processHand aspect st ⟨HandType.RIGHT, ⟨x, y⟩, pd⟩).rotation.x ∧
      (processHand aspect st ⟨HandType.RIGHT, ⟨x, y⟩, pd⟩).rotation.x ≤ 2 := by
  rw [processHand_right]
  refine ⟨rfl, rfl, ?_, ?_, ?_, ?_⟩
  · show (-3 : ℚ) ≤ ((1 - x) - 0.5) * 6
    linarith
  · show ((1 - x) - 0.5) * 6 ≤ 3
    linarith
  · show (-2 : ℚ) ≤ (y - 0.5) * 4
    linarith
  · show (y - 0.5) * 4 ≤ 2
    linarith

theorem right_rotation_formula_and_bounds_witness :
    (0 : ℚ) ≤ (0.25 : ℚ) ∧ (0.25 : ℚ) ≤ 1 ∧
      (0 : ℚ) ≤ (0.75 : ℚ) ∧ (0.75 : ℚ) ≤ 1 ∧
      ((processHand 2 initialEarthControl
            ⟨HandType.RIGHT, ⟨0.25, 0.75⟩, 0.02⟩).rotation.y =
          ((1 - (0.25 : ℚ)) - 0.5) * 6 ∧
        (processHand 2 initialEarthControl
            ⟨HandType.RIGHT, ⟨0.25, 0.75⟩, 0.02⟩).rotation.x =
          ((0.75 : ℚ) - 0.5) * 4 ∧
        -3 ≤ (processHand 2 initialEarthControl
            ⟨HandType.RIGHT, ⟨0.25, 0.75⟩, 0.02⟩).rotation.y ∧
        (processHand 2 initialEarthControl
            ⟨HandType.RIGHT, ⟨0.25, 0.75⟩, 0.02⟩).rotation.y ≤ 3 ∧
        -2 ≤ (processHand 2 initialEarthControl
            ⟨HandType.RIGHT, ⟨0.25, 0.75⟩, 0.02⟩).rotation.x ∧
        (processHand 2 initialEarthControl
            ⟨HandType.RIGHT, ⟨0.25, 0.75⟩, 0.02⟩).rotation.x ≤ 2) :=
  ⟨by norm_num, by norm_num, by norm_num, by norm_num,
    right_rotation_formula_and_bounds 2 initialEarthControl 0.25 0.75 0.02
      (by norm_num) (by norm_num) (by norm_num) (by norm_num)⟩

/-- Claim C3: for a left-hand observation, `position` is mutated only when
the hand is pinching (`pinchDist < 0.05`): when pinching the drag mapping is
stored, and when the left hand is present but not pinching the whole state
(in particular `position`) is left unchanged.  A left-hand observation never
touches `rotation` or `scale`. -/
theorem left_position_only_when_pinching (aspect : ℚ)
    (st : EarthControlState) (pc : Vec2) (pd : ℚ) :
    processHand aspect st ⟨HandType.LEFT, pc, pd⟩ =
        (if pd < 0.05 then
          { st with
              position := { x := ((1 - pc.x) - 0.5) * vWidth aspect
                            y := -((pc.y - 0.5) * vHeight) } }
        else st) ∧
      (processHand aspect st ⟨HandType.LEFT, pc, pd⟩).rotation = st.rotation ∧
      (processHand aspect st ⟨HandType.LEFT, pc, pd⟩).scale = st.scale := by
  by_cases hp : pd < 0.05
  · rw [processHand_left_pinch aspect st pc pd hp, if_pos hp]
    exact ⟨rfl, rfl, rfl⟩
  · rw [processHand_left_idle aspect st pc pd hp, if_neg hp]
    exact ⟨rfl, rfl, rfl⟩

/-- Claim C4: a frame in which zero hands are detected leaves the control
state entirely unchanged, and so does any number `n` of consecutive
handless frames. -/
theorem handless_frames_leave_state_unchanged (aspect : ℚ)
    (st : EarthControlState) (n : ℕ) :
    processFrame aspect [] st = st ∧
      (fun s => processFrame aspect [] s)^[n] st = st :=
  ⟨rfl, Function.iterate_fixed rfl n⟩

/-- Claim C5: the invariant `scale ∈ [0.5, 3.5]` holds at session start
(`initialEarthControl.scale = 1`) and is preserved by every frame of
gesture processing; moreover every value that a processed hand stores in
`scale` is the clamped mapping, so no write can land outside [0.5, 3.5]. -/
theorem scale_invariant_holds_and_is_preserved (aspect : ℚ)
    (events : List GestureEvent) (st : EarthControlState)
    (h0 : 0.5 ≤ st.scale) (h1 : st.scale ≤ 3.5) :
    (0.5 ≤ initialEarthControl.scale ∧ initialEarthControl.scale ≤ 3.5) ∧
      (0.5 ≤ (processFrame aspect events st).scale ∧
        (processFrame aspect events st).scale ≤ 3.5) ∧
      ∀ (st' : EarthControlState) (e : GestureEvent),
        (processHand aspect st' e).scale = st'.scale ∨
          (0.5 ≤ (processHand aspect st' e).scale ∧
            (processHand aspect st' e).scale ≤ 3.5) := by
  refine ⟨by norm_num [initialEarthControl], ?_, ?_⟩
  · exact processFrame_scale_invariant aspect events st h0 h1
  · intro st' e
    rcases processHand_scale_cases aspect st' e with h | h
    · exact Or.inl h
    · exact Or.inr (h ▸ computedScale_mem e.pinchDist)

theorem scale_invariant_holds_and_is_preserved_witness :
    ((0.5 : ℚ) ≤ initialEarthControl.scale ∧
        initialEarthControl.scale ≤ 3.5) ∧
      ((0.5 ≤ initialEarthControl.scale ∧ initialEarthControl.scale ≤ 3.5) ∧
        (0.5 ≤ (processFrame 1
              [⟨HandType.RIGHT, ⟨0.5, 0.5⟩, 0.4⟩,
                ⟨HandType.LEFT, ⟨0.5, 0.5⟩, 0.01⟩]
              initialEarthControl).scale ∧
          (processFrame 1
              [⟨HandType.RIGHT, ⟨0.5, 0.5⟩, 0.4⟩,
                ⟨HandType.LEFT, ⟨0.5, 0.5⟩, 0.01⟩]
              initialEarthControl).scale ≤ 3.5) ∧
        ∀ (st' : EarthControlState) (e : GestureEvent),
          (processHand 1 st' e).scale = st'.scale ∨
            (0.5 ≤ (processHand 1 st' e).scale ∧
              (processHand 1 st' e).scale ≤ 3.5)) :=
  ⟨⟨by norm_num [initialEarthControl], by norm_num [initialEarthControl]⟩,
    scale_invariant_holds_and_is_preserved 1
      [⟨HandType.RIGHT, ⟨0.5, 0.5⟩, 0.4⟩, ⟨HandType.LEFT, ⟨0.5, 0.5⟩, 0.01⟩]
      initialEarthControl
      (by norm_num [initialEarthControl]) (by norm_num [initialEarthControl])⟩

/-- Claim C7 counterexample: the smoothing step invoked with zero elapsed
time does NOT leave the smoothed state unchanged.  With the smoothed scale
at 0 and the target scale at 1, one step moves the scale to 0.1 regardless
of the elapsed time, because the interpolation factors are the fixed
constants 0.2 and 0.1, independent of elapsed time. -/
theorem smoothStep_zero_elapsed_not_identity :
    smoothStep initialEarthControl 0 ⟨0, 0, 0, 0, 0, 0, 0⟩ ≠
      ⟨0, 0, 0, 0, 0, 0, 0⟩ := by
  intro h
  have h1 := congrArg SmoothedState.earthScale h
  norm_num [smoothStep, lerp, initialEarthControl] at h1

/-- Claim C7 amended: the smoothing step ignores its elapsed-time argument
entirely (any two elapsed times give identical results), and a step — with
zero elapsed time or any other — leaves the smoothed state unchanged if and
only if every smoothed field already equals its target.  So the step is a
fixed-point filter, not idempotent at zero elapsed time. -/
theorem smoothStep_ignores_elapsed_fixed_point_iff :
    (∀ (target : EarthControlState) (d d' : ℚ) (s : SmoothedState),
        smoothStep target d s = smoothStep target d' s) ∧
      ∀ (target : EarthControlState) (s : SmoothedState),
        smoothStep target 0 s = s ↔
          (s.posX = target.position.x ∧ s.posY = target.position.y ∧
            s.earthScale = target.scale ∧
            s.cloudsScale = target.scale * 1.02 ∧
            s.ringsScale = target.scale ∧
            s.rotY = target.rotation.y ∧ s.rotX = target.rotation.x) := by
  refine ⟨fun _ _ _ _ => rfl, fun target s => ?_⟩
  simp only [smoothStep, SmoothedState.ext_iff, lerp]
  constructor
  · rintro ⟨h1, h2, h3, h4, h5, h6, h7⟩
    exact ⟨by linarith, by linarith, by linarith, by linarith, by linarith,
      by linarith, by linarith⟩
  · rintro ⟨h1, h2, h3, h4, h5, h6, h7⟩
    exact ⟨by linarith, by linarith, by linarith, by linarith, by linarith,
      by linarith, by linarith⟩

/-- Claim C8 counterexample: for a right-hand observation at palm
`(1.0, 0.5)` with pinch distance `0.25`, the reducer writes
`rotation.y = -3`, not `3`: the mirroring `visualX = 1 - palmX` maps
`palmX = 1` to `visualX = 0`, so `rotation.y = (0 - 0.5) * 6 = -3`. -/
theorem right_scenario_rotation_is_neg_three :
    (processHand 1 initialEarthControl
        ⟨HandType.RIGHT, ⟨1, 0.5⟩, 0.25⟩).rotation.y = -3 ∧
      ((-3 : ℚ) ≠ 3) := by
  constructor
  · rw [processHand_right]
    show ((1 - (1 : ℚ)) - 0.5) * 6 = -3
    norm_num
  · norm_num

/-- Claim C8 amended: for a right-hand observation with palm position
`(1.0, 0.5)` and pinch distance `0.25`, the reducer writes
`rotation.y = -3` (the mirrored `visualX = 0` maps to the left extreme),
`rotation.x = 0`, and `scale = 3.0` (0.5 + 0.25·10 = 3, within the clamp
bounds), from any prior state and viewport. -/
theorem right_scenario_amended (aspect : ℚ) (st : EarthControlState) :
    (processHand aspect st ⟨HandType.RIGHT, ⟨1, 0.5⟩, 0.25⟩).rotation.y =
        -3 ∧
      (processHand aspect st ⟨HandType.RIGHT, ⟨1, 0.5⟩, 0.25⟩).rotation.x =
        0 ∧
      (processHand aspect st ⟨HandType.RIGHT, ⟨1, 0.5⟩, 0.25⟩).scale = 3 := by
  rw [processHand_right]
  refine ⟨?_, ?_, ?_⟩
  · show ((1 - (1 : ℚ)) - 0.5) * 6 = -3
    norm_num
  · show (((0.5 : ℚ)) - 0.5) * 4 = 0
    norm_num
  · show max 0.5 (min 3.5 (0.5 + (0.25 : ℚ) * 10)) = 3
    norm_num

/-- Claim C9 counterexample: the initial control state's position is NOT
the world origin: `earthControl` is created with `position = (-2.5, 0)`
(the globe's fixed anchor left of screen center), so the "centered
position" default the claim states does not hold. -/
theorem initial_position_not_origin :
    initialEarthControl.position.x = -5/2 ∧
      initialEarthControl.position ≠ { x := 0, y := 0 } := by
  refine ⟨rfl, fun h => ?_⟩
  have hx := congrArg Vec2.x h
  norm_num [initialEarthControl] at hx

/-- Claim C9 amended: at session start the control state is created with
identity rotation `(0,0)`, `scale = 1` and `position = (-2.5, 0)` (the
globe's anchor, left of the world origin), and it is never reset to any
default mid-session: each processed hand either leaves each field unchanged
or overwrites it with a value derived from that gesture event, and the
reducer never touches `activeRegion`. -/
theorem initial_defaults_and_never_reset :
    initialEarthControl.rotation = { x := 0, y := 0 } ∧
      initialEarthControl.scale = 1 ∧
      initialEarthControl.position = { x := -5/2, y := 0 } ∧
      ∀ (aspect : ℚ) (st : EarthControlState) (e : GestureEvent),
        ((processHand aspect st e).position = st.position ∨
            (processHand aspect st e).position =
              { x := ((1 - e.palmCenter.x) - 0.5) * vWidth aspect
                y := -((e.palmCenter.y - 0.5) * vHeight) }) ∧
          ((processHand aspect st e).rotation = st.rotation ∨
            (processHand aspect st e).rotation =
              { x := (e.palmCenter.y - 0.5) * 4
                y := ((1 - e.palmCenter.x) - 0.5) * 6 }) ∧
          ((processHand aspect st e).scale = st.scale ∨
            (processHand aspect st e).scale = computedScale e.pinchDist) ∧
          (processHand aspect st e).activeRegion = st.activeRegion := by
  refine ⟨rfl, rfl, rfl, ?_⟩
  intro aspect st e
  obtain ⟨h, pc, pd⟩ := e
  cases h with
  | LEFT =>
      by_cases hp : pd < 0.05
      · rw [processHand_left_pinch aspect st pc pd hp]
        exact ⟨Or.inr rfl, Or.inl rfl, Or.inl rfl, rfl⟩
      · rw [processHand_left_idle aspect st pc pd hp]
        exact ⟨Or.inl rfl, Or.inl rfl, Or.inl rfl, rfl⟩
  | RIGHT =>
      rw [processHand_right]
      exact ⟨Or.inl rfl, Or.inr rfl, Or.inr rfl, rfl⟩

/-- Claim C10: the pinch distance is the 2D Euclidean distance between the
thumb-tip and index-fingertip landmarks using only their x and y
coordinates; the z coordinates never affect the distance, the pinch
classification, or the resulting scale. -/
theorem pinch_distance_ignores_z (t i t' i' : HandLandmark)
    (hx : t.x = t'.x) (hy : t.y = t'.y)
    (hix : i.x = i'.x) (hiy : i.y = i'.y) :
    pinchDistance t i = pinchDistance t' i' ∧
      (isPinchingDist (pinchDistance t i) ↔
        isPinchingDist (pinchDistance t' i')) ∧
      scaleOfPinch (pinchDistance t i) = scaleOfPinch (pinchDistance t' i') := by
  have hd : pinchDistance t i = pinchDistance t' i' := by
    unfold pinchDistance
    rw [hx, hy, hix, hiy]
  exact ⟨hd, by rw [hd], by rw [hd]⟩

theorem pinch_distance_ignores_z_witness :
    (⟨0.3, 0.4, 0⟩ : HandLandmark).x = (⟨0.3, 0.4, 9⟩ : HandLandmark).x ∧
      (⟨0.3, 0.4, 0⟩ : HandLandmark).y = (⟨0.3, 0.4, 9⟩ : HandLandmark).y ∧
      (⟨0.1, 0.2, 5⟩ : HandLandmark).x = (⟨0.1, 0.2, 7⟩ : HandLandmark).x ∧
      (⟨0.1, 0.2, 5⟩ : HandLandmark).y = (⟨0.1, 0.2, 7⟩ : HandLandmark).y ∧
      (pinchDistance ⟨0.3, 0.4, 0⟩ ⟨0.1, 0.2, 5⟩ =
          pinchDistance ⟨0.3, 0.4, 9⟩ ⟨0.1, 0.2, 7⟩ ∧
        (isPinchingDist (pinchDistance ⟨0.3, 0.4, 0⟩ ⟨0.1, 0.2, 5⟩) ↔
          isPinchingDist (pinchDistance ⟨0.3, 0.4, 9⟩ ⟨0.1, 0.2, 7⟩)) ∧
        scaleOfPinch (pinchDistance ⟨0.3, 0.4, 0⟩ ⟨0.1, 0.2, 5⟩) =
          scaleOfPinch (pinchDistance ⟨0.3, 0.4, 9⟩ ⟨0.1, 0.2, 7⟩)) :=
  ⟨rfl, rfl, rfl, rfl,
    pinch_distance_ignores_z ⟨0.3, 0.4, 0⟩ ⟨0.1, 0.2, 5⟩
      ⟨0.3, 0.4, 9⟩ ⟨0.1, 0.2, 7⟩ rfl rfl rfl rfl⟩

/-! ## Lemmas about the angle normalization -/

/-- The modulus `Math.PI * 2` is positive. -/
theorem two_pi_pos : (0 : ℝ) < Real.pi * 2 := by positivity

/-- On `[0, 2π)` the normalization is the identity. -/
theorem normalizeAngle_of_nonneg_of_lt (y : ℝ) (h0 : 0 ≤ y)
    (h2 : y < Real.pi * 2) : normalizeAngle y = y := by
  have hc := two_pi_pos
  have hq0 : 0 ≤ y / (Real.pi * 2) := div_nonneg h0 hc.le
  have hq1 : y / (Real.pi * 2) < 1 := (div_lt_one hc).mpr h2
  have ht : jsTrunc (y / (Real.pi * 2)) = 0 := by
    rw [jsTrunc, if_pos hq0]
    exact_mod_cast congrArg (fun z : ℤ => (z : ℝ))
      (Int.floor_eq_zero_iff.mpr ⟨hq0, hq1⟩)
  simp only [normalizeAngle, ht, mul_zero, sub_zero]
  rw [if_neg (not_lt.mpr h0)]

/-- The normalization sends the angle `2π` itself back to `0`. -/
theorem normalizeAngle_two_pi : normalizeAngle (Real.pi * 2) = 0 := by
  have hc := two_pi_pos
  have ht : jsTrunc ((Real.pi * 2) / (Real.pi * 2)) = 1 := by
    rw [div_self hc.ne', jsTrunc, if_pos (by norm_num : (0:ℝ) ≤ 1)]
    norm_num
  simp only [normalizeAngle, ht, mul_one, sub_self]
  rw [if_neg (lt_irrefl 0)]

/-- The normalized angle always lands in `[0, 2π)`, for every input. -/
theorem normalizeAngle_mem (y : ℝ) :
    0 ≤ normalizeAngle y ∧ normalizeAngle y < Real.pi * 2 := by
  have hc := two_pi_pos
  have hy : y / (Real.pi * 2) * (Real.pi * 2) = y := div_mul_cancel₀ y hc.ne'
  by_cases hq : 0 ≤ y / (Real.pi * 2)
  · have ht : jsTrunc (y / (Real.pi * 2)) = (⌊y / (Real.pi * 2)⌋ : ℝ) :=
      if_pos hq
    have hf0 : (0:ℝ) ≤ y / (Real.pi * 2) - ⌊y / (Real.pi * 2)⌋ := by
      have := Int.floor_le (y / (Real.pi * 2))
      linarith
    have hf1 : y / (Real.pi * 2) - ⌊y / (Real.pi * 2)⌋ < 1 := by
      have := Int.lt_floor_add_one (y / (Real.pi * 2))
      linarith
    have hn : y - Real.pi * 2 * jsTrunc (y / (Real.pi * 2)) =
        Real.pi * 2 * (y / (Real.pi * 2) - ⌊y / (Real.pi * 2)⌋) := by
      rw [ht]
      nlinarith [hy]
    have hn0 : 0 ≤ y - Real.pi * 2 * jsTrunc (y / (Real.pi * 2)) := by
      rw [hn]; positivity
    have hn1 : y - Real.pi * 2 * jsTrunc (y / (Real.pi * 2)) < Real.pi * 2 := by
      rw [hn]; nlinarith
    simp only [normalizeAngle]
    rw [if_neg (not_lt.mpr hn0)]
    exact ⟨hn0, hn1⟩
  · have ht : jsTrunc (y / (Real.pi * 2)) = (⌈y / (Real.pi * 2)⌉ : ℝ) :=
      if_neg hq
    have hf0 : y / (Real.pi * 2) - ⌈y / (Real.pi * 2)⌉ ≤ 0 := by
      have := Int.le_ceil (y / (Real.pi * 2))
      linarith
    have hf1 : -1 < y / (Real.pi * 2) - ⌈y / (Real.pi * 2)⌉ := by
      have := Int.ceil_lt_add_one (y / (Real.pi * 2))
      linarith
    have hn : y - Real.pi * 2 * jsTrunc (y / (Real.pi * 2)) =
        Real.pi * 2 * (y / (Real.pi * 2) - ⌈y / (Real.pi * 2)⌉) := by
      rw [ht]
      nlinarith [hy]
    have hn0 : y - Real.pi * 2 * jsTrunc (y / (Real.pi * 2)) ≤ 0 := by
      rw [hn]; nlinarith
    have hn1 : -(Real.pi * 2) < y - Real.pi * 2 * jsTrunc (y / (Real.pi * 2)) := by
      rw [hn]; nlinarith
    simp only [normalizeAngle]
    by_cases hneg : y - Real.pi * 2 * jsTrunc (y / (Real.pi * 2)) < 0
    · rw [if_pos hneg]
      constructor
      · linarith
      · linarith
    · rw [if_neg hneg]
      constructor
      · linarith
      · linarith

/-- The degree value of the normalized angle always lands in `[0, 360)`. -/
theorem normalizedDeg_mem (y : ℝ) :
    0 ≤ normalizedDeg y ∧ normalizedDeg y < 360 := by
  obtain ⟨h0, h1⟩ := normalizeAngle_mem y
  have hπ := Real.pi_pos
  unfold normalizedDeg
  constructor
  · positivity
  · rw [div_lt_iff₀ hπ]
    nlinarith

/-- The degree value of the angle `0` is `0`. -/
theorem normalizedDeg_zero : normalizedDeg 0 = 0 := by
  unfold normalizedDeg
  rw [normalizeAngle_of_nonneg_of_lt 0 le_rfl two_pi_pos, zero_mul, zero_div]

/-- The degree value of the angle `2π` is `0`. -/
theorem normalizedDeg_two_pi : normalizedDeg (Real.pi * 2) = 0 := by
  unfold normalizedDeg
  rw [normalizeAngle_two_pi, zero_mul, zero_div]

/-- The if-chain of `getRegionFromRotation` coincides pointwise with the
five-interval bucketing `regionOfDeg`. -/
theorem classify_eq_regionOfDeg (d : ℝ) :
    (if d > 330 ∨ d < 30 then "非洲 / 欧洲"
      else if 30 ≤ d ∧ d < 120 then "美洲 (东部)"
      else if 120 ≤ d ∧ d < 210 then "太平洋"
      else if 210 ≤ d ∧ d < 300 then "亚洲 / 澳洲"
      else "大西洋") = regionOfDeg d := by
  unfold regionOfDeg
  rcases lt_or_le d 30 with h30 | h30
  · rw [if_pos (Or.inr h30), if_pos h30]
  · rw [if_neg (not_lt.mpr h30)]
    rcases lt_or_le d 120 with h120 | h120
    · rw [if_neg (not_or.mpr ⟨not_lt.mpr (by linarith), not_lt.mpr h30⟩),
        if_pos ⟨h30, h120⟩, if_pos h120]
    · rw [if_neg (not_lt.mpr h120)]
      rcases lt_or_le d 210 with h210 | h210
      · rw [if_neg (not_or.mpr ⟨not_lt.mpr (by linarith), not_lt.mpr h30⟩),
          if_neg (fun h => absurd h120 (not_le.mpr h.2)),
          if_pos ⟨h120, h210⟩, if_pos h210]
      · rw [if_neg (not_lt.mpr h210)]
        rcases lt_or_le d 300 with h300 | h300
        · rw [if_neg (not_or.mpr ⟨not_lt.mpr (by linarith), not_lt.mpr h30⟩),
            if_neg (fun h => absurd h120 (not_le.mpr h.2)),
            if_neg (fun h => absurd h210 (not_le.mpr h.2)),
            if_pos ⟨h210, h300⟩, if_pos h300]
        · rw [if_neg (not_lt.mpr h300)]
          rcases le_or_lt d 330 with h330 | h330
          · rw [if_neg (not_or.mpr ⟨not_lt.mpr h330, not_lt.mpr h30⟩),
              if_neg (fun h => absurd h120 (not_le.mpr h.2)),
              if_neg (fun h => absurd h210 (not_le.mpr h.2)),
              if_neg (fun h => absurd h300 (not_le.mpr h.2)),
              if_pos h330]
          · rw [if_pos (Or.inl h330), if_neg (not_le.mpr h330)]

/-- The source region function factors through the degree bucketing. -/
theorem getRegionFromRotation_eq (y : ℝ) :
    getRegionFromRotation y = regionOfDeg (normalizedDeg y) := by
  simp only [getRegionFromRotation]
  exact classify_eq_regionOfDeg (normalizedDeg y)

/-- The degree bucketing only ever produces the five documented labels. -/
theorem regionOfDeg_mem_labels (d : ℝ) : regionOfDeg d ∈ regionLabels := by
  unfold regionOfDeg regionLabels
  split_ifs <;> simp

/-- Claim C6 counterexample: the four boundaries 30°, 120°, 210°, 300°
alone do not reproduce the source's bucketing.  At 340° (radians
`17π/9`), the source returns the wrap-around label "非洲 / 欧洲" because
of its fifth boundary `deg > 330`, while the four-boundary partition
described by the spec would still be in the last interval and return
"大西洋". -/
theorem region_four_boundary_counterexample :
    getRegionFromRotation (17 * Real.pi / 9) = "非洲 / 欧洲" ∧
      getRegionSpecPartition (17 * Real.pi / 9) = "大西洋" ∧
      getRegionFromRotation (17 * Real.pi / 9) ≠
        getRegionSpecPartition (17 * Real.pi / 9) := by
  have hπ := Real.pi_pos
  have hnorm : normalizeAngle (17 * Real.pi / 9) = 17 * Real.pi / 9 :=
    normalizeAngle_of_nonneg_of_lt _ (by positivity) (by nlinarith)
  have hdeg : normalizedDeg (17 * Real.pi / 9) = 340 := by
    unfold normalizedDeg
    rw [hnorm]
    field_simp
    ring
  have h1 : getRegionFromRotation (17 * Real.pi / 9) = "非洲 / 欧洲" := by
    rw [getRegionFromRotation_eq, hdeg]
    unfold regionOfDeg
    rw [if_neg (by norm_num), if_neg (by norm_num), if_neg (by norm_num),
      if_neg (by norm_num), if_neg (by norm_num)]
  have h2 : getRegionSpecPartition (17 * Real.pi / 9) = "大西洋" := by
    simp only [getRegionSpecPartition]
    rw [hdeg]
    rw [if_neg (by norm_num), if_neg (by norm_num), if_neg (by norm_num),
      if_neg (by norm_num)]
  refine ⟨h1, h2, ?_⟩
  rw [h1, h2]
  decide

/-- Claim C6 amended: `getRegion(0) = getRegion(2π)` (wraparound), the
normalized degree value always lies in `[0°, 360°)`, and the boundaries at
30°, 120°, 210°, 300° AND 330° deterministically partition it into the
five documented labels (`regionOfDeg`); in particular the function only
ever returns one of those five labels. -/
theorem region_wraparound_and_five_buckets :
    getRegionFromRotation 0 = getRegionFromRotation (2 * Real.pi) ∧
      (∀ y : ℝ, 0 ≤ normalizedDeg y ∧ normalizedDeg y < 360) ∧
      (∀ y : ℝ, getRegionFromRotation y = regionOfDeg (normalizedDeg y)) ∧
      ∀ y : ℝ, getRegionFromRotation y ∈ regionLabels := by
  refine ⟨?_, normalizedDeg_mem, getRegionFromRotation_eq, ?_⟩
  · rw [getRegionFromRotation_eq, getRegionFromRotation_eq,
      normalizedDeg_zero, mul_comm (2:ℝ) Real.pi, normalizedDeg_two_pi]
  · intro y
    rw [getRegionFromRotation_eq]
    exact regionOfDeg_mem_labels (normalizedDeg y)

end Jarvis
